import Mathlib

/-!
Verification of the ngo-funding-scraper pipeline.

Shallow embedding of the core pipeline of `scraper/main.py`,
`scraper/notifier.py` and `scraper/sites/finantare_ro.py`:
keyword matching with word boundaries, deadline classification,
date parsing, the seen-state tracker, and the notification-title
sanitizer.  Python `datetime` values are modelled as microseconds
since the Unix epoch (an `Int`): Python's `timedelta.days` is floor
division of the microsecond difference by the microseconds of a day.
`datetime.now()` calls are modelled by explicit parameters.
-/

namespace NGOFunding

/-! ### Word-boundary keyword matching (`main.py`, `match_keywords`) -/

/-- Word character of the regex `\b` boundary: Python's `\w` on a `str`
is "Unicode alphanumeric or underscore".  The model is exact on the
whole modelled alphabet U+0000–U+024F (see `modelledChar`): ASCII
letters, digits and `_`; the Latin-1 alphanumerics `ª ² ³ µ ¹ º ¼ ½ ¾`;
and every letter of Latin-1 Supplement (U+00C0–U+00FF except `×` and
`÷`), Latin Extended-A and Latin Extended-B (U+0100–U+024F, all
letters) — in particular the Romanian `ă â î ș ț` and their uppercase
forms are word characters, exactly as in `re.search` of `main.py`. -/
def isWordChar (c : Char) : Bool :=
  c.isAlphanum || c = '_' ||
  c.toNat = 0xAA || c.toNat = 0xB2 || c.toNat = 0xB3 || c.toNat = 0xB5 ||
  c.toNat = 0xB9 || c.toNat = 0xBA || c.toNat = 0xBC || c.toNat = 0xBD || c.toNat = 0xBE ||
  (0xC0 ≤ c.toNat && c.toNat ≤ 0x24F && c.toNat ≠ 0xD7 && c.toNat ≠ 0xF7)

/-- The alphabet on which this embedding of the matcher is exact:
Basic Latin, Latin-1 Supplement and Latin Extended-A/B — ASCII plus
every accented Latin letter Romanian text uses — minus `İ` (U+0130),
the one character of the range whose Python lowercase is not a single
in-range character. -/
def modelledChar (c : Char) : Bool := c.toNat ≤ 0x24F && c.toNat ≠ 0x130

/-- `str.lower()` applied characterwise, lowering the ASCII range.  Over
the modelled alphabet this is adequate for the matcher: Python's
`lower()` maps each non-ASCII letter of the range to a non-ASCII letter
of the range (U+0130 being excluded), so the ASCII keywords' occurrences
and the word-character status of their neighbours are the same whether
the non-ASCII letters are lowered or not. -/
def lowerChars (s : String) : List Char := s.toList.map Char.toLower

/-- Whether the character at position `i` of `text` is a word character;
positions past the end count as non-word, like the end of a Python string. -/
def wordAt (text : List Char) (i : Nat) : Bool :=
  match text.drop i with
  | [] => false
  | c :: _ => isWordChar c

/-- The regex word boundary `\b` at position `i`: the word-character
status changes between position `i - 1` (absent before the string) and
position `i`. -/
def boundaryAt (text : List Char) (i : Nat) : Bool :=
  (decide (i ≠ 0) && wordAt text (i - 1)) != wordAt text i

/-- One candidate match of `re.search(r'\b' + kw + r'\b', text)` at
position `i`: `kw` is a prefix of `text.drop i` and both ends sit on a
word boundary. -/
def matchesAt (text kw : List Char) (i : Nat) : Bool :=
  kw.isPrefixOf (text.drop i) && boundaryAt text i && boundaryAt text (i + kw.length)

/-- `re.search` of the word-bounded keyword pattern: some position of
`text` carries a match. -/
def hasWordMatch (text kw : List Char) : Bool :=
  (List.range (text.length + 1)).any (fun i => matchesAt text kw i)

/-- `HIGH_PRIORITY_KEYWORDS` of `main.py`. -/
def HIGH_PRIORITY_KEYWORDS : List String :=
  ["educatie", "educatia", "educational", "educationale", "educativ",
   "steam", "stiinta", "stiinte", "science",
   "tineret", "tineri", "youth",
   "copii", "elevi", "studenti",
   "scoala", "scoli", "scolar",
   "ong", "ngo", "societate civila", "civil society",
   "non-formal", "nonformal",
   "nerambursabil", "nerambursabila", "grant", "granturi"]

/-- `MEDIUM_PRIORITY_KEYWORDS` of `main.py`. -/
def MEDIUM_PRIORITY_KEYWORDS : List String :=
  ["cultura", "cultural", "culturale",
   "inovare", "inovatie", "innovation",
   "digital", "digitalizare", "tehnologie", "technology",
   "capacitare", "formare profesionala",
   "comunitate", "comunitar", "community",
   "incluziune", "incluziv",
   "voluntariat", "civic", "civica",
   "sponsorizare", "mecenatul",
   "sustenabil", "dezvoltare durabila"]

/-- `ALL_KEYWORDS = HIGH_PRIORITY_KEYWORDS + MEDIUM_PRIORITY_KEYWORDS`. -/
def ALL_KEYWORDS : List String := HIGH_PRIORITY_KEYWORDS ++ MEDIUM_PRIORITY_KEYWORDS

/-- `match_keywords` of `main.py`: lowercase `title + " " + description`,
keep every keyword whose word-bounded pattern occurs in the text, in
keyword-list order. -/
def match_keywords (title description : String) : List String :=
  let text := lowerChars (title ++ " " ++ description)
  ALL_KEYWORDS.filter (fun k => hasWordMatch text (lowerChars k))

/-! ### Calendar arithmetic and `datetime` model -/

/-- Gregorian leap year, as `datetime` uses. -/
def isLeapYear (y : Nat) : Bool := y % 4 = 0 && (y % 100 ≠ 0 || y % 400 = 0)

/-- Days in a month of a given year. -/
def daysInMonth (y m : Nat) : Nat :=
  if m = 2 then (if isLeapYear y then 29 else 28)
  else if m = 4 || m = 6 || m = 9 || m = 11 then 30
  else 31

/-- The `(year, month, day)` triples accepted by the `datetime`
constructor (which raises `ValueError` outside them). -/
def validDate (y m d : Nat) : Bool :=
  1 ≤ y && y ≤ 9999 && 1 ≤ m && m ≤ 12 && 1 ≤ d && d ≤ daysInMonth y m

/-- Days from 1970-01-01 to the civil date `y-m-d` (proleptic Gregorian). -/
def daysFromCivil (y m d : Nat) : Int :=
  let yy : Int := if m ≤ 2 then (y : Int) - 1 else (y : Int)
  let era : Int := Int.fdiv yy 400
  let yoe : Int := yy - era * 400
  let mp : Int := if m ≤ 2 then (m : Int) + 9 else (m : Int) - 3
  let doy : Int := Int.fdiv (153 * mp + 2) 5 + (d : Int) - 1
  let doe : Int := yoe * 365 + Int.fdiv yoe 4 - Int.fdiv yoe 100 + doy
  era * 146097 + doe - 719468

/-- Microseconds per day, the resolution of Python `datetime`. -/
def usPerDay : Int := 86400000000

/-- The `datetime(y, m, d)` value (midnight) as epoch microseconds. -/
def toEpochDay (y m d : Nat) : Int := daysFromCivil y m d * usPerDay

/-- The dynamic Python value held by the `deadline_date` field: `None`
(or the key being absent), a `datetime`, or a string. -/
inductive DVal where
  | none
  | dt (t : Int)
  | str (s : String)
deriving DecidableEq

/-- `(deadline - now).days` for Python datetimes: floor division of the
microsecond difference by a day. -/
def days_between (deadline now : Int) : Int := Int.fdiv (deadline - now) usPerDay

/-- The final comparison of `is_closing_soon`:
`0 <= (deadline - now).days <= 14`. -/
def closingCheck (deadline now : Int) : Bool :=
  0 ≤ days_between deadline now && days_between deadline now ≤ 14

/-- Digit characters to a number: `int` on a digit string. -/
def digitsVal (l : List Char) : Nat := l.foldl (fun a c => a * 10 + (c.toNat - 48)) 0

/-- `datetime.fromisoformat` (the `YYYY-MM-DD` date part): ten
characters, dashes at the separator positions, digits elsewhere, and a
calendar-valid date; `ValueError` is modelled as `none`. -/
def parseIsoDate (cs : List Char) : Option (Nat × Nat × Nat) :=
  match cs with
  | [a, b, c, d, s1, e, f, s2, g, h] =>
    if s1 = '-' && s2 = '-' && [a, b, c, d, e, f, g, h].all Char.isDigit then
      let y := digitsVal [a, b, c, d]
      let mo := digitsVal [e, f]
      let da := digitsVal [g, h]
      if validDate y mo da then some (y, mo, da) else none
    else none
  | _ => none

/-- `datetime.fromisoformat` time component `HH[:MM[:SS[.fff[fff]]]]`
(the grammar every CPython ≥ 3.7 accepts; pre-3.11 the fraction must
have exactly 3 or 6 digits), as microseconds into the day; hour, minute
and second are range-checked as the `time` constructor is. -/
def parseIsoTime (cs : List Char) : Option Int :=
  match cs with
  | [h1, h2] =>
    if [h1, h2].all Char.isDigit && digitsVal [h1, h2] ≤ 23 then
      some ((digitsVal [h1, h2] : Int) * 3600000000)
    else Option.none
  | [h1, h2, c1, m1, m2] =>
    if c1 = ':' && [h1, h2, m1, m2].all Char.isDigit
        && digitsVal [h1, h2] ≤ 23 && digitsVal [m1, m2] ≤ 59 then
      some (((digitsVal [h1, h2] * 3600 + digitsVal [m1, m2] * 60 : Nat) : Int) * 1000000)
    else Option.none
  | [h1, h2, c1, m1, m2, c2, s1, s2] =>
    if c1 = ':' && c2 = ':' && [h1, h2, m1, m2, s1, s2].all Char.isDigit
        && digitsVal [h1, h2] ≤ 23 && digitsVal [m1, m2] ≤ 59 && digitsVal [s1, s2] ≤ 59 then
      some (((digitsVal [h1, h2] * 3600 + digitsVal [m1, m2] * 60 + digitsVal [s1, s2] : Nat) : Int)
        * 1000000)
    else Option.none
  | h1 :: h2 :: c1 :: m1 :: m2 :: c2 :: s1 :: s2 :: c3 :: frac =>
    if c1 = ':' && c2 = ':' && c3 = '.' && [h1, h2, m1, m2, s1, s2].all Char.isDigit
        && frac.all Char.isDigit && (frac.length = 3 || frac.length = 6)
        && digitsVal [h1, h2] ≤ 23 && digitsVal [m1, m2] ≤ 59 && digitsVal [s1, s2] ≤ 59 then
      some (((digitsVal [h1, h2] * 3600 + digitsVal [m1, m2] * 60 + digitsVal [s1, s2] : Nat) : Int)
        * 1000000 + ((digitsVal frac : Nat) : Int) * (if frac.length = 3 then 1000 else 1))
    else Option.none
  | _ => Option.none

/-- `datetime.fromisoformat` on naive inputs, as CPython ≥ 3.7 parses
them: `YYYY-MM-DD`, optionally followed by one separator character (any
character, as in pre-3.11 CPython) and a time `HH[:MM[:SS[.fff[fff]]]]`.
Any failure is `none` (the caller catches the `ValueError`).  Timezone
offsets are deliberately not modelled: an offset suffix yields an aware
datetime, and the code's naive `deadline - datetime.now()` subtraction
then raises an uncaught `TypeError`, which a `Bool`-valued embedding
cannot express — see `offsetFree`. -/
def fromisoformat (s : String) : Option Int :=
  let cs := s.toList
  if cs.length = 10 then
    (parseIsoDate cs).map (fun p => toEpochDay p.1 p.2.1 p.2.2)
  else if 10 < cs.length then
    match parseIsoDate (cs.take 10), parseIsoTime (cs.drop 11) with
    | some p, some t => some (toEpochDay p.1 p.2.1 p.2.2 + t)
    | _, _ => none
  else none

/-- `is_closing_soon` of `main.py`: `None` (and the Python-falsy empty
string) give `False`; a string is parsed with `fromisoformat`, a
`ValueError` giving `False`; otherwise
`0 <= (deadline - datetime.now()).days <= 14`. -/
def is_closing_soon (deadline_date : DVal) (now : Int) : Bool :=
  match deadline_date with
  | .none => false
  | .str s =>
    if s = "" then false
    else
      match fromisoformat s with
      | some t => closingCheck t now
      | Option.none => false
  | .dt t => closingCheck t now

/-! ### `parse_date` (`sites/finantare_ro.py`) -/

/-- Python regex `\s` on the ASCII range. -/
def isSpaceChar (c : Char) : Bool :=
  c = ' ' || c = '\t' || c = '\n' || c = '\r' || c = '\x0b' || c = '\x0c'

/-- Split off the maximal leading run of digit characters. -/
def spanDigits : List Char → List Char × List Char
  | [] => ([], [])
  | c :: cs =>
    if c.isDigit then
      let p := spanDigits cs
      (c :: p.1, p.2)
    else ([], c :: cs)

/-- Split off the maximal leading run of whitespace characters. -/
def spanSpaces : List Char → List Char × List Char
  | [] => ([], [])
  | c :: cs =>
    if isSpaceChar c then
      let p := spanSpaces cs
      (c :: p.1, p.2)
    else ([], c :: cs)

/-- Split off the maximal leading run of word characters. -/
def spanWord : List Char → List Char × List Char
  | [] => ([], [])
  | c :: cs =>
    if isWordChar c then
      let p := spanWord cs
      (c :: p.1, p.2)
    else ([], c :: cs)

/-- The Romanian month-name table `ro_months` of `parse_date`. -/
def ro_months : List (String × Nat) :=
  [("ianuarie", 1), ("februarie", 2), ("martie", 3), ("aprilie", 4),
   ("mai", 5), ("iunie", 6), ("iulie", 7), ("august", 8),
   ("septembrie", 9), ("octombrie", 10), ("noiembrie", 11), ("decembrie", 12)]

/-- `re.match(r'(\d{1,2})\s+(\w+)\s+(\d{4})', s)`: anchored at the start
only.  Since the digit, whitespace and word classes are disjoint except
for digits inside `\w`, the backtracking search succeeds exactly on the
maximal-run decomposition: a 1–2 digit run, whitespace, a word run,
whitespace, then four digit characters, with any tail. -/
def matchNamedMonth (cs : List Char) : Option (Nat × String × Nat) :=
  let day := spanDigits cs
  if day.1.length = 0 || day.1.length > 2 then Option.none
  else
    let ws1 := spanSpaces day.2
    if ws1.1.length = 0 then Option.none
    else
      let w := spanWord ws1.2
      if w.1.length = 0 then Option.none
      else
        let ws2 := spanSpaces w.2
        if ws2.1.length = 0 then Option.none
        else
          match ws2.2 with
          | a :: b :: c :: d :: _ =>
            if [a, b, c, d].all Char.isDigit then
              some (digitsVal day.1, String.mk w.1, digitsVal [a, b, c, d])
            else Option.none
          | _ => Option.none

/-- The named-month branch of `parse_date`: on a regex match, look the
lowercased month name up in `ro_months` and build the `datetime`; a
lookup miss or a `ValueError` falls through (`none`). -/
def parse_date_named (cs : List Char) : Option Int :=
  match matchNamedMonth cs with
  | some (d, mname, y) =>
    match List.lookup (String.mk (lowerChars mname)) ro_months with
    | some m => if validDate y m d then some (toEpochDay y m d) else Option.none
    | Option.none => Option.none
  | Option.none => Option.none

/-- One numeric field of a `strptime` format directive: a maximal digit
run whose length lies in `[minLen, maxLen]` and whose value lies in
`[lo, hi]` (the value sets of the `%d`/`%m`/`%Y` directive regexes). -/
def parseField (cs : List Char) (minLen maxLen lo hi : Nat) : Option (Nat × List Char) :=
  let p := spanDigits cs
  if p.1.length < minLen ∨ maxLen < p.1.length then Option.none
  else
    let v := digitsVal p.1
    if v < lo ∨ hi < v then Option.none else some (v, p.2)

/-- A literal separator character of a `strptime` format. -/
def expectSep (cs : List Char) (sep : Char) : Option (List Char) :=
  match cs with
  | c :: rest => if c = sep then some rest else Option.none
  | [] => Option.none

/-- `datetime.strptime(s, '%d<sep>%m<sep>%Y')` without the final
constructor check: `%d` is 1–2 digits valued 1–31, `%m` 1–2 digits
valued 1–12, `%Y` exactly 4 digits, and no unconverted data may remain. -/
def parseDMY (cs : List Char) (sep : Char) : Option (Nat × Nat × Nat) :=
  match parseField cs 1 2 1 31 with
  | Option.none => Option.none
  | some (d, r1) =>
    match expectSep r1 sep with
    | Option.none => Option.none
    | some r2 =>
      match parseField r2 1 2 1 12 with
      | Option.none => Option.none
      | some (m, r3) =>
        match expectSep r3 sep with
        | Option.none => Option.none
        | some r4 =>
          match parseField r4 4 4 0 9999 with
          | Option.none => Option.none
          | some (y, r5) => if r5 = [] then some (y, m, d) else Option.none

/-- `datetime.strptime(s, '%Y-%m-%d')` without the final constructor
check. -/
def parseYMD (cs : List Char) (sep : Char) : Option (Nat × Nat × Nat) :=
  match parseField cs 4 4 0 9999 with
  | Option.none => Option.none
  | some (y, r1) =>
    match expectSep r1 sep with
    | Option.none => Option.none
    | some r2 =>
      match parseField r2 1 2 1 12 with
      | Option.none => Option.none
      | some (m, r3) =>
        match expectSep r3 sep with
        | Option.none => Option.none
        | some r4 =>
          match parseField r4 1 2 1 31 with
          | Option.none => Option.none
          | some (d, r5) => if r5 = [] then some (y, m, d) else Option.none

/-- One `strptime` attempt of the `parse_date` loop: a format is a
separator plus the field order; a `ValueError` from the `datetime`
constructor is swallowed (`none`). -/
def tryFormat (cs : List Char) (f : Char × Bool) : Option Int :=
  match (if f.2 then parseYMD cs f.1 else parseDMY cs f.1) with
  | some (y, m, d) => if validDate y m d then some (toEpochDay y m d) else Option.none
  | Option.none => Option.none

/-- The format list `['%d.%m.%Y', '%d/%m/%Y', '%d-%m-%Y', '%Y-%m-%d']`,
as separator/order pairs, in source order. -/
def dateFormats : List (Char × Bool) := [('.', false), ('/', false), ('-', false), ('-', true)]

/-- `parse_date` of `sites/finantare_ro.py`: the named Romanian month
pattern first, then the numeric formats in order; every failure path
returns `None` rather than raising. -/
def parse_date_core (cs : List Char) : Option Int :=
  match parse_date_named cs with
  | some t => some t
  | Option.none => dateFormats.findSome? (fun f => tryFormat cs f)

/-- `parse_date` on a Lean string. -/
def parse_date (s : String) : Option Int := parse_date_core s.toList

/-! ### Seen-state tracker (`main.py`, `process_funding` and
`cleanup_old_funding`) -/

/-- A scraped funding item as the extractors produce it. -/
structure Item where
  id : String
  title : String
  url : String
  deadline : Option String
  deadline_date : DVal
  source : String
  description : String
deriving DecidableEq

/-- The persistent per-id snapshot stored in the seen database. -/
structure SeenRecord where
  first_seen : String
  title : String
  url : String
  source : String
  deadline : Option String
  matched_keywords : List String
deriving DecidableEq

/-- The seen database: an insertion-ordered mapping from funding id to
snapshot (a Python dict), plus the last-update stamp. -/
structure SeenDB where
  funding : List (String × SeenRecord)
  last_updated : Option String
deriving DecidableEq

/-- A matching item after classification: the classifier-added fields of
`process_funding`. -/
structure AnnotatedItem where
  item : Item
  matched_keywords : List String
  is_high_priority : Bool
  closing_soon : Bool
deriving DecidableEq

/-- The snapshot `process_funding` inserts for a newly seen item. -/
def mkSeenRecord (item : Item) (mk : List String) (nowIso : String) : SeenRecord :=
  { first_seen := nowIso, title := item.title, url := item.url,
    source := item.source, deadline := item.deadline, matched_keywords := mk }

/-- `process_funding` of `main.py`: walk the scraped items in order; an
item with no matched keywords is skipped; a matching item is annotated
and appended to `all_matching`; if its id is not yet a key of
`seen_data['funding']` it is also appended to `new_matching` and a
snapshot is inserted.  Returns
`(new_matching, all_matching, seen_data)`. -/
def process_funding (all_funding : List Item) (seen_data : SeenDB)
    (nowIso : String) (now : Int) : List AnnotatedItem × List AnnotatedItem × SeenDB :=
  match all_funding with
  | [] => ([], [], seen_data)
  | item :: rest =>
    let mk := match_keywords item.title item.description
    if mk.isEmpty then process_funding rest seen_data nowIso now
    else
      let ann : AnnotatedItem :=
        { item := item, matched_keywords := mk,
          is_high_priority := mk.any (fun k => HIGH_PRIORITY_KEYWORDS.contains k),
          closing_soon := is_closing_soon item.deadline_date now }
      if (List.lookup item.id seen_data.funding).isSome then
        let r := process_funding rest seen_data nowIso now
        (r.1, ann :: r.2.1, r.2.2)
      else
        let db1 : SeenDB :=
          { seen_data with funding := seen_data.funding ++ [(item.id, mkSeenRecord item mk nowIso)] }
        let r := process_funding rest db1 nowIso now
        (ann :: r.1, ann :: r.2.1, r.2.2)

/-- `cleanup_old_funding` of `main.py`: delete every key of
`seen_data['funding']` absent from `current_ids` and return the new
database together with the number of deleted keys. -/
def cleanup_old_funding (seen_data : SeenDB) (current_ids : List String) : SeenDB × Nat :=
  let old := (seen_data.funding.map Prod.fst).filter (fun fid => !current_ids.contains fid)
  ({ seen_data with funding := seen_data.funding.filter (fun p => current_ids.contains p.1) },
   old.length)

/-! ### Notification-title sanitizer (`notifier.py`, `sanitize_header`) -/

/-- `unicodedata.normalize('NFKD', ·)` on one character, restricted to
the characters this pipeline's claims touch: the ten Romanian diacritics
decompose into their base letter followed by the combining breve, the
combining circumflex or the combining comma below; every other modelled
character is its own normal form. -/
def nfkdChar (c : Char) : List Char :=
  if c = Char.ofNat 0x103 then [Char.ofNat 0x61, Char.ofNat 0x306]
  else if c = Char.ofNat 0xE2 then [Char.ofNat 0x61, Char.ofNat 0x302]
  else if c = Char.ofNat 0xEE then [Char.ofNat 0x69, Char.ofNat 0x302]
  else if c = Char.ofNat 0x219 then [Char.ofNat 0x73, Char.ofNat 0x326]
  else if c = Char.ofNat 0x21B then [Char.ofNat 0x74, Char.ofNat 0x326]
  else if c = Char.ofNat 0x102 then [Char.ofNat 0x41, Char.ofNat 0x306]
  else if c = Char.ofNat 0xC2 then [Char.ofNat 0x41, Char.ofNat 0x302]
  else if c = Char.ofNat 0xCE then [Char.ofNat 0x49, Char.ofNat 0x302]
  else if c = Char.ofNat 0x218 then [Char.ofNat 0x53, Char.ofNat 0x326]
  else if c = Char.ofNat 0x21A then [Char.ofNat 0x54, Char.ofNat 0x326]
  else [c]

/-- The `replacements` table of `sanitize_header`; every entry is one
character to one character, so the sequential `str.replace` loop is a
characterwise map. -/
def header_replacements : List (Char × Char) :=
  [(Char.ofNat 0x2013, '-'), (Char.ofNat 0x2014, '-'),
   (Char.ofNat 0x2018, '\''), (Char.ofNat 0x2019, '\''),
   (Char.ofNat 0x201C, '"'), (Char.ofNat 0x201D, '"'),
   (Char.ofNat 0x103, 'a'), (Char.ofNat 0xE2, 'a'), (Char.ofNat 0xEE, 'i'),
   (Char.ofNat 0x219, 's'), (Char.ofNat 0x21B, 't'),
   (Char.ofNat 0x102, 'A'), (Char.ofNat 0xC2, 'A'), (Char.ofNat 0xCE, 'I'),
   (Char.ofNat 0x218, 'S'), (Char.ofNat 0x21A, 'T')]

/-- One application of the replacement table. -/
def replaceChar (c : Char) : Char :=
  match List.lookup c header_replacements with
  | some r => r
  | Option.none => c

/-- `sanitize_header` of `notifier.py`: NFKD-normalize, apply the
replacement table, then `encode('ascii', 'ignore')`, which drops every
character above U+007F. -/
def sanitize_header (s : String) : String :=
  String.mk ((((s.toList).flatMap nfkdChar).map replaceChar).filter (fun c => c.toNat < 128))

/-! ### Association-list lemmas for the seen database -/

theorem lookup_append {β : Type} (k : String) (l1 l2 : List (String × β)) :
    List.lookup k (l1 ++ l2) = (List.lookup k l1).or (List.lookup k l2) := by
  induction l1 with
  | nil => simp
  | cons p rest ih =>
    obtain ⟨k1, v⟩ := p
    cases hbeq : k == k1 <;> simp [List.lookup_cons, hbeq, ih]

/-- Processing any further items never rewrites an id already present in
the database: `process_funding` only ever appends ids that are absent. -/
theorem process_funding_lookup_preserved (items : List Item) (db : SeenDB)
    (nowIso : String) (now : Int) (k : String)
    (h : (List.lookup k db.funding).isSome) :
    List.lookup k (process_funding items db nowIso now).2.2.funding = List.lookup k db.funding := by
  induction items generalizing db with
  | nil => simp [process_funding]
  | cons item rest ih =>
    simp only [process_funding]
    by_cases hm : (match_keywords item.title item.description).isEmpty
    · simpa [hm] using ih db h
    · by_cases hs : (List.lookup item.id db.funding).isSome
      · simpa [hm, hs] using ih db h
      · have hda : List.lookup k
            (db.funding ++ [(item.id, mkSeenRecord item (match_keywords item.title item.description) nowIso)])
            = List.lookup k db.funding := by
          rw [lookup_append]
          cases hl : List.lookup k db.funding
          · rw [hl] at h; simp at h
          · rfl
        have h1 : (List.lookup k ({ db with funding := db.funding ++
            [(item.id, mkSeenRecord item (match_keywords item.title item.description) nowIso)] } : SeenDB).funding).isSome := by
          simpa [hda] using h
        simpa [hm, hs, hda] using ih _ h1

/-- Every annotated item of the `all_matching` output comes from the
input list, carries exactly its matched keywords (which are nonempty),
and has the derived flags of the classifier. -/
theorem process_funding_all_spec (items : List Item) (db : SeenDB) (nowIso : String) (now : Int)
    (a : AnnotatedItem) (ha : a ∈ (process_funding items db nowIso now).2.1) :
    a.item ∈ items ∧
    a.matched_keywords = match_keywords a.item.title a.item.description ∧
    a.matched_keywords ≠ [] ∧
    a.is_high_priority = a.matched_keywords.any (fun k => HIGH_PRIORITY_KEYWORDS.contains k) ∧
    a.closing_soon = is_closing_soon a.item.deadline_date now := by
  induction items generalizing db with
  | nil => simp [process_funding] at ha
  | cons item rest ih =>
    simp only [process_funding] at ha
    by_cases hm : (match_keywords item.title item.description).isEmpty
    · simp only [hm, if_true] at ha
      have h1 := ih db ha
      exact ⟨List.mem_cons_of_mem _ h1.1, h1.2⟩
    · simp only [hm, Bool.false_eq_true, if_false] at ha
      have hmm : match_keywords item.title item.description ≠ [] := by
        simpa [List.isEmpty_iff] using hm
      by_cases hs : (List.lookup item.id db.funding).isSome
      · simp only [hs, if_true, List.mem_cons] at ha
        rcases ha with rfl | ha
        · exact ⟨by simp, rfl, hmm, rfl, rfl⟩
        · have h1 := ih db ha
          exact ⟨List.mem_cons_of_mem _ h1.1, h1.2⟩
      · simp only [hs, Bool.false_eq_true, if_false, List.mem_cons] at ha
        rcases ha with rfl | ha
        · exact ⟨by simp, rfl, hmm, rfl, rfl⟩
        · have h1 := ih _ ha
          exact ⟨List.mem_cons_of_mem _ h1.1, h1.2⟩

/-- Every new item also appears in the `all_matching` output. -/
theorem process_funding_new_subset (items : List Item) (db : SeenDB) (nowIso : String) (now : Int)
    (a : AnnotatedItem) (ha : a ∈ (process_funding items db nowIso now).1) :
    a ∈ (process_funding items db nowIso now).2.1 := by
  induction items generalizing db with
  | nil => simp [process_funding] at ha
  | cons item rest ih =>
    simp only [process_funding] at ha ⊢
    by_cases hm : (match_keywords item.title item.description).isEmpty
    · simp only [hm, if_true] at ha ⊢
      exact ih db ha
    · simp only [hm, Bool.false_eq_true, if_false] at ha ⊢
      by_cases hs : (List.lookup item.id db.funding).isSome
      · simp only [hs, if_true] at ha ⊢
        exact List.mem_cons_of_mem _ (ih db ha)
      · simp only [hs, Bool.false_eq_true, if_false, List.mem_cons] at ha ⊢
        rcases ha with rfl | ha
        · exact Or.inl rfl
        · exact Or.inr (ih _ ha)

/-- If no matching item of the run carries the id `fid`, then processing
inserts no record under `fid`. -/
theorem process_funding_no_insert (items : List Item) (db : SeenDB) (nowIso : String) (now : Int)
    (fid : String)
    (hmt : ∀ j ∈ items, j.id = fid → match_keywords j.title j.description = [])
    (h0 : List.lookup fid db.funding = Option.none) :
    List.lookup fid (process_funding items db nowIso now).2.2.funding = Option.none := by
  induction items generalizing db with
  | nil => simp only [process_funding]; exact h0
  | cons item rest ih =>
    have hmt' : ∀ j ∈ rest, j.id = fid → match_keywords j.title j.description = [] :=
      fun j hj => hmt j (List.mem_cons_of_mem _ hj)
    simp only [process_funding]
    by_cases hm : (match_keywords item.title item.description).isEmpty
    · simp only [hm, if_true]
      exact ih db hmt' h0
    · simp only [hm, Bool.false_eq_true, if_false]
      by_cases hs : (List.lookup item.id db.funding).isSome
      · simp only [hs, if_true]
        exact ih db hmt' h0
      · simp only [hs, Bool.false_eq_true, if_false]
        have hne : item.id ≠ fid := by
          intro he
          have := hmt item (by simp) he
          simp [List.isEmpty_iff, this] at hm
        have h1 : List.lookup fid (db.funding ++
            [(item.id, mkSeenRecord item (match_keywords item.title item.description) nowIso)])
            = Option.none := by
          rw [lookup_append, h0]
          simp [List.lookup_cons, beq_eq_false_iff_ne.mpr (Ne.symm hne)]
        exact ih _ hmt' h1

/-- The insert-if-absent behaviour of the tracker: under distinct ids
and all-matching items, an item whose id is absent from the database is
returned as new and gets a snapshot record inserted. -/
theorem process_funding_new_item (items : List Item) (db : SeenDB) (nowIso : String) (now : Int)
    (it : Item) (hmem : it ∈ items)
    (hall : ∀ j ∈ items, match_keywords j.title j.description ≠ [])
    (hnd : (items.map Item.id).Nodup)
    (h0 : List.lookup it.id db.funding = Option.none) :
    (∃ a ∈ (process_funding items db nowIso now).1, a.item = it) ∧
    List.lookup it.id (process_funding items db nowIso now).2.2.funding =
      some (mkSeenRecord it (match_keywords it.title it.description) nowIso) := by
  induction items generalizing db with
  | nil => simp at hmem
  | cons item rest ih =>
    have hmhead : ¬ (match_keywords item.title item.description).isEmpty := by
      simpa [List.isEmpty_iff] using hall item (by simp)
    rcases List.mem_cons.mp hmem with heq | hmem'
    · subst heq
      simp only [process_funding]
      have hs : ¬ (List.lookup it.id db.funding).isSome := by simp [h0]
      simp only [hmhead, Bool.false_eq_true, if_false, hs]
      constructor
      · exact ⟨_, List.mem_cons_self _ _, rfl⟩
      · have hl1 : List.lookup it.id (db.funding ++
            [(it.id, mkSeenRecord it (match_keywords it.title it.description) nowIso)])
            = some (mkSeenRecord it (match_keywords it.title it.description) nowIso) := by
          rw [lookup_append, h0]
          simp [List.lookup_cons]
        rw [process_funding_lookup_preserved rest _ nowIso now it.id (by simp [hl1])]
        exact hl1
    · have hne : item.id ≠ it.id := by
        intro he
        have hmap : it.id ∈ rest.map Item.id := List.mem_map_of_mem Item.id hmem'
        rw [List.map_cons, List.nodup_cons] at hnd
        exact hnd.1 (he ▸ hmap)
      have hall' : ∀ j ∈ rest, match_keywords j.title j.description ≠ [] :=
        fun j hj => hall j (List.mem_cons_of_mem _ hj)
      have hnd' : (rest.map Item.id).Nodup := by
        rw [List.map_cons, List.nodup_cons] at hnd
        exact hnd.2
      simp only [process_funding]
      by_cases hs : (List.lookup item.id db.funding).isSome
      · simp only [hmhead, Bool.false_eq_true, if_false, hs, if_true]
        exact ih db hmem' hall' hnd' h0
      · simp only [hmhead, Bool.false_eq_true, if_false, hs]
        have h1 : List.lookup it.id (db.funding ++
            [(item.id, mkSeenRecord item (match_keywords item.title item.description) nowIso)])
            = Option.none := by
          rw [lookup_append, h0]
          simp [List.lookup_cons, beq_eq_false_iff_ne.mpr (Ne.symm hne)]
        have h2 := ih { db with funding := db.funding ++
          [(item.id, mkSeenRecord item (match_keywords item.title item.description) nowIso)] }
          hmem' hall' hnd' h1
        exact ⟨⟨h2.1.choose, List.mem_cons_of_mem _ h2.1.choose_spec.1, h2.1.choose_spec.2⟩, h2.2⟩

/-- C8: an id already present in `database.funding` keeps its stored
SeenRecord unchanged through `process_funding`, however often the item
is re-observed and whatever its current fields are: re-observation never
updates the first-seen snapshot. -/
theorem C8_seen_record_immutable (items : List Item) (db : SeenDB) (nowIso : String) (now : Int)
    (fid : String) (rec : SeenRecord)
    (h : List.lookup fid db.funding = some rec) :
    List.lookup fid (process_funding items db nowIso now).2.2.funding = some rec := by
  rw [process_funding_lookup_preserved items db nowIso now fid (by simp [h])]
  exact h

/-- C8 witness data: a one-record database. -/
def wItemOld : Item :=
  { id := "a1", title := "Grant educatie", url := "u1", deadline := Option.none,
    deadline_date := .none, source := "finantare_ro", description := "" }

/-- C8 witness data: the stored snapshot of `wItemOld`. -/
def wRecOld : SeenRecord := mkSeenRecord wItemOld ["educatie", "grant"] "t0"

/-- C8 witness data: the same listing re-observed with a changed title
that still matches keywords. -/
def wItemChanged : Item :=
  { id := "a1", title := "Granturi pentru tineret", url := "u1", deadline := some "31.12.2026",
    deadline_date := .none, source := "finantare_ro", description := "" }

/-- C8 witness: re-observing id `a1` with changed fields leaves its
stored record bit-for-bit unchanged. -/
theorem C8_seen_record_immutable_witness :
    List.lookup "a1" (process_funding [wItemChanged]
      { funding := [("a1", wRecOld)], last_updated := Option.none } "t9" 0).2.2.funding
      = some wRecOld :=
  C8_seen_record_immutable [wItemChanged]
    { funding := [("a1", wRecOld)], last_updated := Option.none } "t9" 0 "a1" wRecOld (by decide)

/-! ### The concrete diff scenario of the spec -/

/-- Scenario item 1: matches `educatie` and `grant`. -/
def seedItem1 : Item :=
  { id := "a1", title := "Grant educatie", url := "u1", deadline := Option.none,
    deadline_date := .none, source := "finantare_ro", description := "" }

/-- Scenario item 2: matches `tineret`. -/
def seedItem2 : Item :=
  { id := "b2", title := "Finantare pentru tineret", url := "u2", deadline := Option.none,
    deadline_date := .none, source := "afcn", description := "" }

/-- Scenario item 3: matches `ong`. -/
def seedItem3 : Item :=
  { id := "c3", title := "Sprijin pentru ONG-uri", url := "u3", deadline := Option.none,
    deadline_date := .none, source := "fdsc", description := "" }

/-- The empty seen database of a first run. -/
def emptyDB : SeenDB := { funding := [], last_updated := Option.none }

/-- First run of the diff over the three matching items. -/
def diffRun1 : List AnnotatedItem × List AnnotatedItem × SeenDB :=
  process_funding [seedItem1, seedItem2, seedItem3] emptyDB "t0" 0

/-- Second run of the diff, over the same items and the updated
database. -/
def diffRun2 : List AnnotatedItem × List AnnotatedItem × SeenDB :=
  process_funding [seedItem1, seedItem2, seedItem3] diffRun1.2.2 "t1" 0

/-- C1: the tracker diff.  (i) For every database and all-matching,
distinct-id item list, an item whose id is not yet a key of
`database.funding` is returned as new and gets a SeenRecord inserted;
(ii) from the empty database, the three matching items are all returned
new and three records inserted; (iii) re-running with the updated
database returns no new item; (iv) every key of `database.funding`
absent from `current_ids` is deleted by the cleanup; (v) concretely,
keeping only ids `a1` and `b2` prunes `c3`. -/
theorem C1_seen_state_diff :
    (∀ (items : List Item) (db : SeenDB) (nowIso : String) (now : Int) (it : Item),
      it ∈ items →
      (∀ j ∈ items, match_keywords j.title j.description ≠ []) →
      (items.map Item.id).Nodup →
      List.lookup it.id db.funding = Option.none →
      (∃ a ∈ (process_funding items db nowIso now).1, a.item = it) ∧
      List.lookup it.id (process_funding items db nowIso now).2.2.funding =
        some (mkSeenRecord it (match_keywords it.title it.description) nowIso)) ∧
    diffRun1.1.length = 3 ∧
    diffRun1.2.2.funding.map Prod.fst = ["a1", "b2", "c3"] ∧
    diffRun2.1.length = 0 ∧
    (∀ (db : SeenDB) (ids : List String) (fid : String),
      fid ∉ ids → fid ∉ (cleanup_old_funding db ids).1.funding.map Prod.fst) ∧
    (cleanup_old_funding diffRun1.2.2 ["a1", "b2"]).1.funding.map Prod.fst = ["a1", "b2"] := by
  refine ⟨process_funding_new_item, by decide, by decide, by decide, ?_, by decide⟩
  intro db ids fid hni hmem
  rw [List.mem_map] at hmem
  obtain ⟨p, hp, hfst⟩ := hmem
  simp only [cleanup_old_funding] at hp
  rw [List.mem_filter] at hp
  exact hni (hfst ▸ List.elem_iff.mp hp.2)

/-- C1 witness: the general insert-if-absent conjunct applied to the
first scenario item on the first run. -/
theorem C1_seen_state_diff_witness :
    (∃ a ∈ diffRun1.1, a.item = seedItem1) ∧
    List.lookup seedItem1.id diffRun1.2.2.funding =
      some (mkSeenRecord seedItem1 (match_keywords seedItem1.title seedItem1.description) "t0") :=
  C1_seen_state_diff.1 [seedItem1, seedItem2, seedItem3] emptyDB "t0" 0 seedItem1
    (by simp) (by decide) (by decide) (by decide)

/-- C6: an item matching no keyword is discarded entirely: a
one-item run with it leaves everything unchanged; in any run it appears
in neither the new-items nor the all-matching output (so it is never
handed to the notifier, which receives the new-items list); and no
SeenRecord is inserted under its id.  Concretely, `Anunt general` and
the diacritic title `Dezvoltare comunitară` (where `comunitar` occurs
only inside the longer word) match zero keywords. -/
theorem C6_discard_unmatched :
    (∀ (db : SeenDB) (nowIso : String) (now : Int) (item : Item),
      match_keywords item.title item.description = [] →
      process_funding [item] db nowIso now = ([], [], db)) ∧
    (∀ (items : List Item) (db : SeenDB) (nowIso : String) (now : Int) (it : Item),
      it ∈ items → match_keywords it.title it.description = [] →
      (∀ a ∈ (process_funding items db nowIso now).2.1, a.item ≠ it) ∧
      (∀ a ∈ (process_funding items db nowIso now).1, a.item ≠ it)) ∧
    (∀ (items : List Item) (db : SeenDB) (nowIso : String) (now : Int) (fid : String),
      (∀ j ∈ items, j.id = fid → match_keywords j.title j.description = []) →
      List.lookup fid db.funding = Option.none →
      List.lookup fid (process_funding items db nowIso now).2.2.funding = Option.none) ∧
    match_keywords "Anunt general" "" = [] ∧
    match_keywords "Dezvoltare comunitară" "" = [] := by
  refine ⟨?_, ?_, process_funding_no_insert, by decide, by decide⟩
  · intro db nowIso now item h
    simp [process_funding, h]
  · intro items db nowIso now it _ hm
    have hall : ∀ a ∈ (process_funding items db nowIso now).2.1, a.item ≠ it := by
      intro a ha heq
      have h1 := process_funding_all_spec items db nowIso now a ha
      exact h1.2.2.1 (by rw [h1.2.1, heq, hm])
    exact ⟨hall, fun a ha => hall a (process_funding_new_subset items db nowIso now a ha)⟩

/-- An unmatched item whose title is a longer diacritic word containing
a keyword (`comunitar` inside `comunitară`): zero matches, like the
source's `\b`-bounded search. -/
def comItem : Item :=
  { id := "w7", title := "Dezvoltare comunitară", url := "uw", deadline := Option.none,
    deadline_date := .none, source := "fdsc", description := "" }

/-- C6 witness: runs over one unmatched item (`Anunt general`, and the
diacritic `Dezvoltare comunitară`) return no new items, no matching
items, and leave the database untouched. -/
theorem C6_discard_unmatched_witness :
    process_funding
      [{ id := "z9", title := "Anunt general", url := "u9", deadline := Option.none,
         deadline_date := .none, source := "ngohub", description := "" }]
      emptyDB "t0" 0 = ([], [], emptyDB) ∧
    process_funding [comItem] emptyDB "t0" 0 = ([], [], emptyDB) :=
  ⟨C6_discard_unmatched.1 emptyDB "t0" 0
    { id := "z9", title := "Anunt general", url := "u9", deadline := Option.none,
      deadline_date := .none, source := "ngohub", description := "" } (by decide),
   C6_discard_unmatched.1 emptyDB "t0" 0 comItem (by decide)⟩

/-- The concrete medium-tier item of the spec scenario. -/
def festItem : Item :=
  { id := "f1", title := "Festival local", url := "uf", deadline := Option.none,
    deadline_date := .none, source := "afcn", description := "eveniment cultural" }

/-- The classifier output for `festItem`. -/
def festAnn : AnnotatedItem :=
  { item := festItem, matched_keywords := ["cultural"],
    is_high_priority := false, closing_soon := false }

/-- C7: an output item's `is_high_priority` is true exactly when some
matched keyword lies in the high-priority tier; the medium-only item
`Festival local / eveniment cultural` matches exactly `cultural` and is
not high priority. -/
theorem C7_high_priority_iff :
    (∀ (items : List Item) (db : SeenDB) (nowIso : String) (now : Int) (a : AnnotatedItem),
      a ∈ (process_funding items db nowIso now).2.1 →
      (a.is_high_priority = true ↔ ∃ k ∈ a.matched_keywords, k ∈ HIGH_PRIORITY_KEYWORDS)) ∧
    (process_funding [festItem] emptyDB "t0" 0).2.1 = [festAnn] := by
  constructor
  · intro items db nowIso now a ha
    have h1 := process_funding_all_spec items db nowIso now a ha
    rw [h1.2.2.2.1, List.any_eq_true]
    constructor
    · rintro ⟨k, hk, hc⟩
      exact ⟨k, hk, List.elem_iff.mp hc⟩
    · rintro ⟨k, hk, hc⟩
      exact ⟨k, hk, List.elem_iff.mpr hc⟩
  · decide

/-- C7 witness: the general conjunct applied to the only output item of
the medium-tier run. -/
theorem C7_high_priority_iff_witness :
    festAnn.is_high_priority = true ↔ ∃ k ∈ festAnn.matched_keywords, k ∈ HIGH_PRIORITY_KEYWORDS :=
  C7_high_priority_iff.1 [festItem] emptyDB "t0" 0 festAnn
    (by rw [C7_high_priority_iff.2]; exact List.mem_singleton.mpr rfl)

/-! ### Word-boundary matching is standalone-occurrence matching -/

/-- The first character of `kw` is a word character. -/
def headIsWord (kw : List Char) : Bool :=
  match kw with
  | [] => false
  | c :: _ => isWordChar c

/-- The last character of `kw` is a word character. -/
def lastIsWord (kw : List Char) : Bool := headIsWord kw.reverse

/-- Written after the spec's words, for comparison with the regex
search of the source: the keyword occurs somewhere in the text standing
alone — not as a substring of a longer word — i.e. the character before
the occurrence (if any) and the character after it (if any) are not word
characters. -/
def standaloneOccurs (kw text : List Char) : Prop :=
  ∃ i u, kw ++ u = text.drop i ∧
    (i = 0 ∨ wordAt text (i - 1) = false) ∧
    wordAt text (i + kw.length) = false

theorem wordAt_eq_of_drop (text : List Char) (i : Nat) (c : Char) (u : List Char)
    (h : text.drop i = c :: u) : wordAt text i = isWordChar c := by
  unfold wordAt
  rw [h]

/-- For a keyword that begins and ends in word characters — every
keyword of the source's lists does — the regex search with `\b` at both
ends finds a match exactly when the keyword occurs standing alone. -/
theorem hasWordMatch_iff_standalone (text kw : List Char)
    (hh : headIsWord kw = true) (hl : lastIsWord kw = true) :
    hasWordMatch text kw = true ↔ standaloneOccurs kw text := by
  obtain ⟨c0, kt, rfl⟩ : ∃ c0 kt, kw = c0 :: kt := by
    cases kw with
    | nil => simp [headIsWord] at hh
    | cons c t => exact ⟨c, t, rfl⟩
  have hc0 : isWordChar c0 = true := by simpa [headIsWord] using hh
  obtain ⟨ks, cl, hksp⟩ : ∃ ks cl, c0 :: kt = ks ++ [cl] ∧ isWordChar cl = true := by
    obtain ⟨cr, tr, hrev⟩ : ∃ cr tr, (c0 :: kt).reverse = cr :: tr := by
      cases hrev : (c0 :: kt).reverse with
      | nil => simp at hrev
      | cons cr tr => exact ⟨cr, tr, rfl⟩
    refine ⟨tr.reverse, cr, ?_, ?_⟩
    · have := congrArg List.reverse hrev
      simpa using this
    · unfold lastIsWord at hl
      rw [hrev] at hl
      simpa [headIsWord] using hl
  obtain ⟨hks, hcl⟩ := hksp
  unfold hasWordMatch
  rw [List.any_eq_true]
  constructor
  · rintro ⟨i, _, hm⟩
    unfold matchesAt at hm
    rw [Bool.and_eq_true, Bool.and_eq_true] at hm
    obtain ⟨⟨hpre, hb1⟩, hb2⟩ := hm
    rw [List.isPrefixOf_iff_prefix] at hpre
    obtain ⟨u, hu⟩ := hpre
    have hdrop : text.drop i = (c0 :: kt) ++ u := hu.symm
    refine ⟨i, u, hu, ?_, ?_⟩
    · have hw : wordAt text i = true := by
        rw [wordAt_eq_of_drop text i c0 (kt ++ u) (by simpa using hdrop)]
        exact hc0
      unfold boundaryAt at hb1
      rw [hw] at hb1
      rcases Nat.eq_zero_or_pos i with h0 | hpos
      · exact Or.inl h0
      · right
        have hne : i ≠ 0 := Nat.pos_iff_ne_zero.mp hpos
        simpa [hne] using hb1
    · have hlen1 : i + (c0 :: kt).length - 1 = i + ((c0 :: kt).length - 1) := by
        simp [List.length_cons]
      have hdrop1 : text.drop (i + ((c0 :: kt).length - 1)) = cl :: u := by
        rw [← List.drop_drop, hdrop, hks]
        have hlks : (ks ++ [cl]).length - 1 = ks.length := by simp
        rw [hlks, List.append_assoc]
        simp [List.drop_left ks ([cl] ++ u)]
      have hw1 : wordAt text (i + (c0 :: kt).length - 1) = true := by
        rw [hlen1, wordAt_eq_of_drop text _ cl u hdrop1]
        exact hcl
      unfold boundaryAt at hb2
      have hne : i + (c0 :: kt).length ≠ 0 := by simp
      rw [hw1] at hb2
      simpa [hne] using hb2
  · rintro ⟨i, u, hu, hbefore, hafter⟩
    have hdrop : text.drop i = (c0 :: kt) ++ u := hu.symm
    have hlt : i < text.length := by
      have hne : text.drop i ≠ [] := by
        rw [hdrop]
        simp
      have := mt List.drop_eq_nil_iff.mpr hne
      omega
    refine ⟨i, List.mem_range.mpr (by omega), ?_⟩
    unfold matchesAt
    rw [Bool.and_eq_true, Bool.and_eq_true]
    refine ⟨⟨?_, ?_⟩, ?_⟩
    · rw [List.isPrefixOf_iff_prefix]
      exact ⟨u, hu⟩
    · have hw : wordAt text i = true := by
        rw [wordAt_eq_of_drop text i c0 (kt ++ u) (by simpa using hdrop)]
        exact hc0
      unfold boundaryAt
      rw [hw]
      rcases hbefore with h0 | hwb
      · simp [h0]
      · simp [hwb]
    · have hlen1 : i + (c0 :: kt).length - 1 = i + ((c0 :: kt).length - 1) := by
        simp [List.length_cons]
      have hdrop1 : text.drop (i + ((c0 :: kt).length - 1)) = cl :: u := by
        rw [← List.drop_drop, hdrop, hks]
        have hlks : (ks ++ [cl]).length - 1 = ks.length := by simp
        rw [hlks, List.append_assoc]
        simp [List.drop_left ks ([cl] ++ u)]
      have hw1 : wordAt text (i + (c0 :: kt).length - 1) = true := by
        rw [hlen1, wordAt_eq_of_drop text _ cl u hdrop1]
        exact hcl
      have hne : i + (c0 :: kt).length ≠ 0 := by simp
      unfold boundaryAt
      rw [hw1, hafter]
      simp [hne]

/-- C2: keyword matching is whole-word and case-insensitive: over the
modelled alphabet (ASCII plus the Latin-1/Extended letters, on which
`isWordChar` is exactly Python's `\w`), a keyword is matched exactly
when it occurs standing alone — both neighbours non-word — in the
lowercased `title + " " + description`.  Concretely: `prelungire` and a
text with `long` do not match keyword `ong`; a keyword is not matched
inside a longer diacritic word (`comunitar` in `comunitară`, `civic` in
`civică`); a standalone upper-case `ONG` does match. -/
theorem C2_whole_word_matching :
    (∀ (title description k : String),
      (∀ c ∈ (title ++ " " ++ description).toList, modelledChar c = true) →
      (k ∈ match_keywords title description ↔
        k ∈ ALL_KEYWORDS ∧
          standaloneOccurs (lowerChars k) (lowerChars (title ++ " " ++ description)))) ∧
    "ong" ∉ match_keywords "prelungire" "" ∧
    "ong" ∉ match_keywords "Contract pe termen long" "" ∧
    "comunitar" ∉ match_keywords "Dezvoltare comunitară" "" ∧
    "civic" ∉ match_keywords "Pregatire civică" "" ∧
    "ong" ∈ match_keywords "Sprijin ONG local" "" := by
  refine ⟨?_, by decide, by decide, by decide, by decide, by decide⟩
  intro title description k _
  have hfact : ∀ k0 ∈ ALL_KEYWORDS,
      headIsWord (lowerChars k0) = true ∧ lastIsWord (lowerChars k0) = true := by decide
  simp only [match_keywords]
  rw [List.mem_filter]
  constructor
  · rintro ⟨hk, hw⟩
    exact ⟨hk, (hasWordMatch_iff_standalone _ _ (hfact k hk).1 (hfact k hk).2).mp hw⟩
  · rintro ⟨hk, hs⟩
    exact ⟨hk, (hasWordMatch_iff_standalone _ _ (hfact k hk).1 (hfact k hk).2).mpr hs⟩

/-- C2 witness: the general equivalence applied to a concrete matching
text over the modelled alphabet. -/
theorem C2_whole_word_matching_witness :
    "ong" ∈ ALL_KEYWORDS ∧
      standaloneOccurs (lowerChars "ong") (lowerChars ("Sprijin ONG local" ++ " " ++ "")) :=
  (C2_whole_word_matching.1 "Sprijin ONG local" "" "ong" (by decide)).mp (by decide)

/-! ### The closing-soon window -/

theorem closingCheck_iff (t now : Int) :
    closingCheck t now = true ↔ now ≤ t ∧ t < now + 15 * usPerDay := by
  unfold closingCheck days_between usPerDay
  rw [Int.fdiv_eq_ediv _ (by norm_num)]
  simp only [Bool.and_eq_true, decide_eq_true_eq]
  omega

/-- C3 counterexample: a deadline one hour past `now + 14 days` lies
outside the inclusive window `[now, now + 14 days]`, yet
`is_closing_soon` is true for it, because `(deadline - now).days`
floors to 14. -/
theorem C3_window_counterexample :
    is_closing_soon (DVal.dt (14 * usPerDay + 3600000000)) 0 = true ∧
    0 + 14 * usPerDay < 14 * usPerDay + 3600000000 := by
  exact ⟨by decide, by decide⟩

/-- C3 (amended): `closing_soon` for a datetime deadline is true exactly
when the deadline lies in the half-open window `[now, now + 15 days)` —
equivalently, when the floored whole-day difference is between 0 and 14;
the claim's boundary cases hold: `now + 14 days` gives true,
`now + 15 days` and yesterday give false. -/
theorem C3_closing_soon_window :
    (∀ (t now : Int), is_closing_soon (DVal.dt t) now = true ↔
      now ≤ t ∧ t < now + 15 * usPerDay) ∧
    is_closing_soon (DVal.dt (14 * usPerDay)) 0 = true ∧
    is_closing_soon (DVal.dt (15 * usPerDay)) 0 = false ∧
    is_closing_soon (DVal.dt (-usPerDay)) 0 = false := by
  refine ⟨?_, by decide, by decide, by decide⟩
  intro t now
  exact closingCheck_iff t now

/-- C3 witness: the amended window equivalence applied at a deadline
equal to `now`. -/
theorem C3_closing_soon_window_witness : is_closing_soon (DVal.dt 0) 0 = true :=
  (C3_closing_soon_window.1 0 0).mpr ⟨le_refl 0, by decide⟩

/-- C9: the sanitizer emits only ASCII characters for every input; the
ten Romanian diacritics are transliterated to their base Latin letters;
a character with no decomposition and no replacement (here U+4E00) is
stripped. -/
theorem C9_sanitize_ascii :
    (∀ (s : String), ∀ c ∈ (sanitize_header s).toList, c.toNat < 128) ∧
    sanitize_header (String.mk [Char.ofNat 0x103, Char.ofNat 0xE2, Char.ofNat 0xEE,
      Char.ofNat 0x219, Char.ofNat 0x21B, Char.ofNat 0x102, Char.ofNat 0xC2,
      Char.ofNat 0xCE, Char.ofNat 0x218, Char.ofNat 0x21A]) = "aaistAAIST" ∧
    sanitize_header (String.mk [Char.ofNat 0x4E00]) = "" := by
  refine ⟨?_, by decide, by decide⟩
  intro s c hc
  have hm : c ∈ (((s.toList.flatMap nfkdChar).map replaceChar).filter
      (fun c0 => c0.toNat < 128)) := hc
  rw [List.mem_filter] at hm
  simpa using hm.2

/-- C9 witness: the ASCII-only conjunct applied to a concrete character
of a concrete sanitized string. -/
theorem C9_sanitize_ascii_witness :
    ('a' ∈ (sanitize_header "ab").toList) ∧ 'a'.toNat < 128 :=
  ⟨by decide, C9_sanitize_ascii.1 "ab" 'a' (by decide)⟩

/-! ### `parse_date` on symbolic digit strings -/

/-- The list begins with a non-digit character (or is empty): the shape
that stops a maximal digit run. -/
def headNotDigit (cs : List Char) : Prop :=
  match cs with
  | [] => True
  | c :: _ => c.isDigit = false

theorem spanDigits_append (ds rest : List Char) (h1 : ∀ c ∈ ds, c.isDigit = true)
    (h2 : headNotDigit rest) : spanDigits (ds ++ rest) = (ds, rest) := by
  induction ds with
  | nil =>
    cases rest with
    | nil => rfl
    | cons c cs =>
      have hc : c.isDigit = false := h2
      simp [spanDigits, hc]
  | cons c cs ih =>
    have hc : c.isDigit = true := h1 c (List.mem_cons_self c cs)
    have ih' := ih (fun x hx => h1 x (List.mem_cons_of_mem c hx))
    simp only [List.cons_append, spanDigits, hc, if_true, List.append_eq, ih']

theorem spanSpaces_stop (c : Char) (cs : List Char) (h : isSpaceChar c = false) :
    spanSpaces (c :: cs) = ([], c :: cs) := by
  simp [spanSpaces, h]

theorem parseField_spec (ds rest : List Char) (minLen maxLen lo hi : Nat)
    (h1 : ∀ c ∈ ds, c.isDigit = true) (h2 : headNotDigit rest) :
    parseField (ds ++ rest) minLen maxLen lo hi =
      if minLen ≤ ds.length ∧ ds.length ≤ maxLen ∧ lo ≤ digitsVal ds ∧ digitsVal ds ≤ hi
      then some (digitsVal ds, rest) else Option.none := by
  unfold parseField
  rw [spanDigits_append ds rest h1 h2]
  by_cases ha : minLen ≤ ds.length ∧ ds.length ≤ maxLen ∧ lo ≤ digitsVal ds ∧ digitsVal ds ≤ hi
  · have c1 : ¬(ds.length < minLen ∨ maxLen < ds.length) := by omega
    have c2 : ¬(digitsVal ds < lo ∨ hi < digitsVal ds) := by omega
    simp [ha, c1, c2]
  · rcases Decidable.not_and_iff_or_not.mp ha with hb | hcd
    · have c1 : ds.length < minLen ∨ maxLen < ds.length := by omega
      simp [ha, c1]
    · rcases Decidable.not_and_iff_or_not.mp hcd with hb | hcd
      · have c1 : ds.length < minLen ∨ maxLen < ds.length := by omega
        simp [ha, c1]
      · by_cases c1 : ds.length < minLen ∨ maxLen < ds.length
        · simp [ha, c1]
        · have c2 : digitsVal ds < lo ∨ hi < digitsVal ds := by omega
          simp [ha, c1, c2]

theorem parseField2_spec (a b : Char) (rest : List Char) (lo hi : Nat)
    (ha : a.isDigit = true) (hb : b.isDigit = true) (h2 : headNotDigit rest) :
    parseField (a :: b :: rest) 1 2 lo hi =
      if lo ≤ digitsVal [a, b] ∧ digitsVal [a, b] ≤ hi
      then some (digitsVal [a, b], rest) else Option.none := by
  have h := parseField_spec [a, b] rest 1 2 lo hi (by simp [ha, hb]) h2
  simpa using h

theorem parseField4_spec (a b c d : Char) (rest : List Char) (lo hi : Nat)
    (ha : a.isDigit = true) (hb : b.isDigit = true)
    (hc : c.isDigit = true) (hd : d.isDigit = true) (h2 : headNotDigit rest) :
    parseField (a :: b :: c :: d :: rest) 4 4 lo hi =
      if lo ≤ digitsVal [a, b, c, d] ∧ digitsVal [a, b, c, d] ≤ hi
      then some (digitsVal [a, b, c, d], rest) else Option.none := by
  have h := parseField_spec [a, b, c, d] rest 4 4 lo hi (by simp [ha, hb, hc, hd]) h2
  simpa using h

theorem parseField_len4_no2 (a b c d : Char) (rest : List Char) (lo hi : Nat)
    (ha : a.isDigit = true) (hb : b.isDigit = true)
    (hc : c.isDigit = true) (hd : d.isDigit = true) (h2 : headNotDigit rest) :
    parseField (a :: b :: c :: d :: rest) 1 2 lo hi = Option.none := by
  have h := parseField_spec [a, b, c, d] rest 1 2 lo hi (by simp [ha, hb, hc, hd]) h2
  simpa using h

theorem parseField_len2_no4 (a b : Char) (rest : List Char) (lo hi : Nat)
    (ha : a.isDigit = true) (hb : b.isDigit = true) (h2 : headNotDigit rest) :
    parseField (a :: b :: rest) 4 4 lo hi = Option.none := by
  have h := parseField_spec [a, b] rest 4 4 lo hi (by simp [ha, hb]) h2
  simpa using h

theorem expectSep_eq (sep : Char) (rest : List Char) :
    expectSep (sep :: rest) sep = some rest := by
  simp [expectSep]

theorem expectSep_ne (c sep : Char) (rest : List Char) (h : c ≠ sep) :
    expectSep (c :: rest) sep = Option.none := by
  simp [expectSep, h]

theorem parseDMY_dmy (d1 d2 m1 m2 y1 y2 y3 y4 sep : Char)
    (hd1 : d1.isDigit = true) (hd2 : d2.isDigit = true)
    (hm1 : m1.isDigit = true) (hm2 : m2.isDigit = true)
    (hy1 : y1.isDigit = true) (hy2 : y2.isDigit = true)
    (hy3 : y3.isDigit = true) (hy4 : y4.isDigit = true)
    (hs : sep.isDigit = false) :
    parseDMY [d1, d2, sep, m1, m2, sep, y1, y2, y3, y4] sep =
      if 1 ≤ digitsVal [d1, d2] ∧ digitsVal [d1, d2] ≤ 31 ∧
         1 ≤ digitsVal [m1, m2] ∧ digitsVal [m1, m2] ≤ 12 ∧ digitsVal [y1, y2, y3, y4] ≤ 9999
      then some (digitsVal [y1, y2, y3, y4], digitsVal [m1, m2], digitsVal [d1, d2])
      else Option.none := by
  have hnd1 : headNotDigit (sep :: [m1, m2, sep, y1, y2, y3, y4]) := hs
  have hnd2 : headNotDigit (sep :: [y1, y2, y3, y4]) := hs
  unfold parseDMY
  rw [parseField2_spec d1 d2 (sep :: [m1, m2, sep, y1, y2, y3, y4]) 1 31 hd1 hd2 hnd1]
  by_cases h1 : 1 ≤ digitsVal [d1, d2] ∧ digitsVal [d1, d2] ≤ 31
  · rw [if_pos h1]
    simp only [expectSep_eq]
    rw [parseField2_spec m1 m2 (sep :: [y1, y2, y3, y4]) 1 12 hm1 hm2 hnd2]
    by_cases h2 : 1 ≤ digitsVal [m1, m2] ∧ digitsVal [m1, m2] ≤ 12
    · rw [if_pos h2]
      simp only [expectSep_eq]
      rw [parseField4_spec y1 y2 y3 y4 [] 0 9999 hy1 hy2 hy3 hy4 trivial]
      by_cases h3 : digitsVal [y1, y2, y3, y4] ≤ 9999
      · rw [if_pos ⟨Nat.zero_le _, h3⟩, if_pos ⟨h1.1, h1.2, h2.1, h2.2, h3⟩]
        simp
      · rw [if_neg (by omega), if_neg (by omega)]
    · rw [if_neg h2, if_neg (by omega)]
  · rw [if_neg h1, if_neg (by omega)]

theorem parseDMY_dmy_wrong_sep (d1 d2 m1 m2 y1 y2 y3 y4 sep sep2 : Char)
    (hd1 : d1.isDigit = true) (hd2 : d2.isDigit = true)
    (hs : sep.isDigit = false) (hne : sep ≠ sep2) :
    parseDMY [d1, d2, sep, m1, m2, sep, y1, y2, y3, y4] sep2 = Option.none := by
  have hnd1 : headNotDigit (sep :: [m1, m2, sep, y1, y2, y3, y4]) := hs
  unfold parseDMY
  rw [parseField2_spec d1 d2 (sep :: [m1, m2, sep, y1, y2, y3, y4]) 1 31 hd1 hd2 hnd1]
  by_cases h1 : 1 ≤ digitsVal [d1, d2] ∧ digitsVal [d1, d2] ≤ 31
  · rw [if_pos h1]
    simp only [expectSep_ne sep sep2 _ hne]
  · rw [if_neg h1]

theorem parseDMY_on_ymd (d1 d2 m1 m2 y1 y2 y3 y4 sep sep2 : Char)
    (hy1 : y1.isDigit = true) (hy2 : y2.isDigit = true)
    (hy3 : y3.isDigit = true) (hy4 : y4.isDigit = true)
    (hs : sep.isDigit = false) :
    parseDMY [y1, y2, y3, y4, sep, m1, m2, sep, d1, d2] sep2 = Option.none := by
  have hnd1 : headNotDigit (sep :: [m1, m2, sep, d1, d2]) := hs
  unfold parseDMY
  rw [parseField_len4_no2 y1 y2 y3 y4 (sep :: [m1, m2, sep, d1, d2]) 1 31 hy1 hy2 hy3 hy4 hnd1]

theorem parseYMD_on_dmy (d1 d2 m1 m2 y1 y2 y3 y4 sep sep2 : Char)
    (hd1 : d1.isDigit = true) (hd2 : d2.isDigit = true)
    (hs : sep.isDigit = false) :
    parseYMD [d1, d2, sep, m1, m2, sep, y1, y2, y3, y4] sep2 = Option.none := by
  have hnd1 : headNotDigit (sep :: [m1, m2, sep, y1, y2, y3, y4]) := hs
  unfold parseYMD
  rw [parseField_len2_no4 d1 d2 (sep :: [m1, m2, sep, y1, y2, y3, y4]) 0 9999 hd1 hd2 hnd1]

theorem parseYMD_ymd (d1 d2 m1 m2 y1 y2 y3 y4 sep : Char)
    (hd1 : d1.isDigit = true) (hd2 : d2.isDigit = true)
    (hm1 : m1.isDigit = true) (hm2 : m2.isDigit = true)
    (hy1 : y1.isDigit = true) (hy2 : y2.isDigit = true)
    (hy3 : y3.isDigit = true) (hy4 : y4.isDigit = true)
    (hs : sep.isDigit = false) :
    parseYMD [y1, y2, y3, y4, sep, m1, m2, sep, d1, d2] sep =
      if digitsVal [y1, y2, y3, y4] ≤ 9999 ∧
         1 ≤ digitsVal [m1, m2] ∧ digitsVal [m1, m2] ≤ 12 ∧
         1 ≤ digitsVal [d1, d2] ∧ digitsVal [d1, d2] ≤ 31
      then some (digitsVal [y1, y2, y3, y4], digitsVal [m1, m2], digitsVal [d1, d2])
      else Option.none := by
  have hnd1 : headNotDigit (sep :: [m1, m2, sep, d1, d2]) := hs
  have hnd2 : headNotDigit (sep :: [d1, d2]) := hs
  unfold parseYMD
  rw [parseField4_spec y1 y2 y3 y4 (sep :: [m1, m2, sep, d1, d2]) 0 9999 hy1 hy2 hy3 hy4 hnd1]
  by_cases h1 : digitsVal [y1, y2, y3, y4] ≤ 9999
  · rw [if_pos ⟨Nat.zero_le _, h1⟩]
    simp only [expectSep_eq]
    rw [parseField2_spec m1 m2 (sep :: [d1, d2]) 1 12 hm1 hm2 hnd2]
    by_cases h2 : 1 ≤ digitsVal [m1, m2] ∧ digitsVal [m1, m2] ≤ 12
    · rw [if_pos h2]
      simp only [expectSep_eq]
      rw [parseField2_spec d1 d2 [] 1 31 hd1 hd2 trivial]
      by_cases h3 : 1 ≤ digitsVal [d1, d2] ∧ digitsVal [d1, d2] ≤ 31
      · rw [if_pos h3, if_pos ⟨h1, h2.1, h2.2, h3.1, h3.2⟩]
        simp
      · rw [if_neg h3, if_neg (by omega)]
    · rw [if_neg h2, if_neg (by omega)]
  · rw [if_neg (by omega), if_neg (by omega)]

theorem daysInMonth_le (y m : Nat) : daysInMonth y m ≤ 31 := by
  unfold daysInMonth
  split_ifs <;> omega

theorem validDate_bounds (y m d : Nat) (h : validDate y m d = true) :
    1 ≤ y ∧ y ≤ 9999 ∧ 1 ≤ m ∧ m ≤ 12 ∧ 1 ≤ d ∧ d ≤ 31 := by
  unfold validDate at h
  simp only [Bool.and_eq_true, decide_eq_true_eq] at h
  have hd := daysInMonth_le y m
  omega

theorem matchNamedMonth_dmy (d1 d2 m1 m2 y1 y2 y3 y4 sep : Char)
    (hd1 : d1.isDigit = true) (hd2 : d2.isDigit = true)
    (hsd : sep.isDigit = false) (hss : isSpaceChar sep = false) :
    matchNamedMonth [d1, d2, sep, m1, m2, sep, y1, y2, y3, y4] = Option.none := by
  unfold matchNamedMonth
  have hsp : spanDigits [d1, d2, sep, m1, m2, sep, y1, y2, y3, y4]
      = ([d1, d2], sep :: [m1, m2, sep, y1, y2, y3, y4]) :=
    spanDigits_append [d1, d2] (sep :: [m1, m2, sep, y1, y2, y3, y4]) (by simp [hd1, hd2]) hsd
  rw [hsp]
  simp [spanSpaces_stop sep _ hss]

theorem matchNamedMonth_ymd (d1 d2 m1 m2 y1 y2 y3 y4 sep : Char)
    (hy1 : y1.isDigit = true) (hy2 : y2.isDigit = true)
    (hy3 : y3.isDigit = true) (hy4 : y4.isDigit = true)
    (hsd : sep.isDigit = false) :
    matchNamedMonth [y1, y2, y3, y4, sep, m1, m2, sep, d1, d2] = Option.none := by
  unfold matchNamedMonth
  have hsp : spanDigits [y1, y2, y3, y4, sep, m1, m2, sep, d1, d2]
      = ([y1, y2, y3, y4], sep :: [m1, m2, sep, d1, d2]) :=
    spanDigits_append [y1, y2, y3, y4] (sep :: [m1, m2, sep, d1, d2])
      (by simp [hy1, hy2, hy3, hy4]) hsd
  rw [hsp]
  simp

theorem parse_date_named_of_no_match (cs : List Char) (h : matchNamedMonth cs = Option.none) :
    parse_date_named cs = Option.none := by
  unfold parse_date_named
  rw [h]

theorem tryFormat_dmy_none (cs : List Char) (sep : Char) (h : parseDMY cs sep = Option.none) :
    tryFormat cs (sep, false) = Option.none := by
  simp only [tryFormat]
  simp [h]

theorem tryFormat_ymd_none (cs : List Char) (sep : Char) (h : parseYMD cs sep = Option.none) :
    tryFormat cs (sep, true) = Option.none := by
  simp only [tryFormat]
  simp [h]

theorem tryFormat_dmy_some (cs : List Char) (sep : Char) (y m d : Nat)
    (h : parseDMY cs sep = some (y, m, d)) :
    tryFormat cs (sep, false) =
      if validDate y m d then some (toEpochDay y m d) else Option.none := by
  simp only [tryFormat]
  simp [h]

theorem tryFormat_ymd_some (cs : List Char) (sep : Char) (y m d : Nat)
    (h : parseYMD cs sep = some (y, m, d)) :
    tryFormat cs (sep, true) =
      if validDate y m d then some (toEpochDay y m d) else Option.none := by
  simp only [tryFormat]
  simp [h]

/-- `parse_date` on a `dd<sep>mm<sep>yyyy` digit string, for each of the
three separators of the format list: the named-month pattern cannot
match, the matching numeric format fires, and the result is exactly the
`datetime` of the digits when they form a valid date, `None` otherwise. -/
theorem parse_date_core_dmy (d1 d2 m1 m2 y1 y2 y3 y4 sep : Char)
    (hd1 : d1.isDigit = true) (hd2 : d2.isDigit = true)
    (hm1 : m1.isDigit = true) (hm2 : m2.isDigit = true)
    (hy1 : y1.isDigit = true) (hy2 : y2.isDigit = true)
    (hy3 : y3.isDigit = true) (hy4 : y4.isDigit = true)
    (hsep : sep = '.' ∨ sep = '/' ∨ sep = '-') :
    parse_date_core [d1, d2, sep, m1, m2, sep, y1, y2, y3, y4] =
      if validDate (digitsVal [y1, y2, y3, y4]) (digitsVal [m1, m2]) (digitsVal [d1, d2])
      then some (toEpochDay (digitsVal [y1, y2, y3, y4]) (digitsVal [m1, m2]) (digitsVal [d1, d2]))
      else Option.none := by
  have hsd : sep.isDigit = false := by rcases hsep with rfl | rfl | rfl <;> decide
  have hss : isSpaceChar sep = false := by rcases hsep with rfl | rfl | rfl <;> decide
  have hnamed : parse_date_named [d1, d2, sep, m1, m2, sep, y1, y2, y3, y4] = Option.none :=
    parse_date_named_of_no_match _
      (matchNamedMonth_dmy d1 d2 m1 m2 y1 y2 y3 y4 sep hd1 hd2 hsd hss)
  have hpd := parseDMY_dmy d1 d2 m1 m2 y1 y2 y3 y4 sep hd1 hd2 hm1 hm2 hy1 hy2 hy3 hy4 hsd
  have hmatching : tryFormat [d1, d2, sep, m1, m2, sep, y1, y2, y3, y4] (sep, false) =
      if validDate (digitsVal [y1, y2, y3, y4]) (digitsVal [m1, m2]) (digitsVal [d1, d2])
      then some (toEpochDay (digitsVal [y1, y2, y3, y4]) (digitsVal [m1, m2]) (digitsVal [d1, d2]))
      else Option.none := by
    by_cases hC : 1 ≤ digitsVal [d1, d2] ∧ digitsVal [d1, d2] ≤ 31 ∧
        1 ≤ digitsVal [m1, m2] ∧ digitsVal [m1, m2] ≤ 12 ∧ digitsVal [y1, y2, y3, y4] ≤ 9999
    · exact tryFormat_dmy_some _ sep _ _ _ (by rw [hpd, if_pos hC])
    · rw [tryFormat_dmy_none _ sep (by rw [hpd, if_neg hC])]
      rw [if_neg ?hv]
      case hv =>
        intro hv
        have hb := validDate_bounds _ _ _ hv
        exact hC ⟨hb.2.2.2.2.1, hb.2.2.2.2.2, hb.2.2.1, hb.2.2.2.1, hb.2.1⟩
  have hwrong : ∀ sep2 : Char, sep ≠ sep2 →
      tryFormat [d1, d2, sep, m1, m2, sep, y1, y2, y3, y4] (sep2, false) = Option.none :=
    fun sep2 hne => tryFormat_dmy_none _ sep2
      (parseDMY_dmy_wrong_sep d1 d2 m1 m2 y1 y2 y3 y4 sep sep2 hd1 hd2 hsd hne)
  have hymd : tryFormat [d1, d2, sep, m1, m2, sep, y1, y2, y3, y4] ('-', true) = Option.none :=
    tryFormat_ymd_none _ '-' (parseYMD_on_dmy d1 d2 m1 m2 y1 y2 y3 y4 sep '-' hd1 hd2 hsd)
  unfold parse_date_core
  rw [hnamed]
  rcases hsep with rfl | rfl | rfl
  · by_cases hv : validDate (digitsVal [y1, y2, y3, y4]) (digitsVal [m1, m2]) (digitsVal [d1, d2])
    · simp [dateFormats, hmatching, hv]
    · simp [dateFormats, hmatching, hwrong '/' (by decide), hwrong '-' (by decide), hymd, hv]
  · by_cases hv : validDate (digitsVal [y1, y2, y3, y4]) (digitsVal [m1, m2]) (digitsVal [d1, d2])
    · simp [dateFormats, hmatching, hwrong '.' (by decide), hv]
    · simp [dateFormats, hmatching, hwrong '.' (by decide), hwrong '-' (by decide), hymd, hv]
  · by_cases hv : validDate (digitsVal [y1, y2, y3, y4]) (digitsVal [m1, m2]) (digitsVal [d1, d2])
    · simp [dateFormats, hmatching, hwrong '.' (by decide), hwrong '/' (by decide), hv]
    · simp [dateFormats, hmatching, hwrong '.' (by decide), hwrong '/' (by decide), hymd, hv]

/-- `parse_date` on a `yyyy-mm-dd` digit string: the day-first formats
all fail on the four-digit year, and `%Y-%m-%d` parses it. -/
theorem parse_date_core_ymd (d1 d2 m1 m2 y1 y2 y3 y4 : Char)
    (hd1 : d1.isDigit = true) (hd2 : d2.isDigit = true)
    (hm1 : m1.isDigit = true) (hm2 : m2.isDigit = true)
    (hy1 : y1.isDigit = true) (hy2 : y2.isDigit = true)
    (hy3 : y3.isDigit = true) (hy4 : y4.isDigit = true) :
    parse_date_core [y1, y2, y3, y4, '-', m1, m2, '-', d1, d2] =
      if validDate (digitsVal [y1, y2, y3, y4]) (digitsVal [m1, m2]) (digitsVal [d1, d2])
      then some (toEpochDay (digitsVal [y1, y2, y3, y4]) (digitsVal [m1, m2]) (digitsVal [d1, d2]))
      else Option.none := by
  have hsd : ('-' : Char).isDigit = false := by decide
  have hnamed : parse_date_named [y1, y2, y3, y4, '-', m1, m2, '-', d1, d2] = Option.none :=
    parse_date_named_of_no_match _
      (matchNamedMonth_ymd d1 d2 m1 m2 y1 y2 y3 y4 '-' hy1 hy2 hy3 hy4 hsd)
  have hpy := parseYMD_ymd d1 d2 m1 m2 y1 y2 y3 y4 '-' hd1 hd2 hm1 hm2 hy1 hy2 hy3 hy4 hsd
  have hdmy : ∀ sep2 : Char,
      tryFormat [y1, y2, y3, y4, '-', m1, m2, '-', d1, d2] (sep2, false) = Option.none :=
    fun sep2 => tryFormat_dmy_none _ sep2
      (parseDMY_on_ymd d1 d2 m1 m2 y1 y2 y3 y4 '-' sep2 hy1 hy2 hy3 hy4 hsd)
  have hmatching : tryFormat [y1, y2, y3, y4, '-', m1, m2, '-', d1, d2] ('-', true) =
      if validDate (digitsVal [y1, y2, y3, y4]) (digitsVal [m1, m2]) (digitsVal [d1, d2])
      then some (toEpochDay (digitsVal [y1, y2, y3, y4]) (digitsVal [m1, m2]) (digitsVal [d1, d2]))
      else Option.none := by
    by_cases hC : digitsVal [y1, y2, y3, y4] ≤ 9999 ∧
        1 ≤ digitsVal [m1, m2] ∧ digitsVal [m1, m2] ≤ 12 ∧
        1 ≤ digitsVal [d1, d2] ∧ digitsVal [d1, d2] ≤ 31
    · exact tryFormat_ymd_some _ '-' _ _ _ (by rw [hpy, if_pos hC])
    · rw [tryFormat_ymd_none _ '-' (by rw [hpy, if_neg hC])]
      rw [if_neg ?hv]
      case hv =>
        intro hv
        have hb := validDate_bounds _ _ _ hv
        exact hC ⟨hb.2.1, hb.2.2.1, hb.2.2.2.1, hb.2.2.2.2.1, hb.2.2.2.2.2⟩
  unfold parse_date_core
  rw [hnamed]
  by_cases hv : validDate (digitsVal [y1, y2, y3, y4]) (digitsVal [m1, m2]) (digitsVal [d1, d2])
  · simp [dateFormats, hmatching, hdmy, hv]
  · simp [dateFormats, hmatching, hdmy, hv]

/-- C5: every valid calendar date is parsed to the same `datetime` from
each of the four numeric renderings `dd.mm.yyyy`, `dd/mm/yyyy`,
`dd-mm-yyyy` and `yyyy-mm-dd` — the result does not depend on the
separator/format variant. -/
theorem C5_parse_date_separator_invariance (d1 d2 m1 m2 y1 y2 y3 y4 : Char)
    (hd1 : d1.isDigit = true) (hd2 : d2.isDigit = true)
    (hm1 : m1.isDigit = true) (hm2 : m2.isDigit = true)
    (hy1 : y1.isDigit = true) (hy2 : y2.isDigit = true)
    (hy3 : y3.isDigit = true) (hy4 : y4.isDigit = true)
    (hv : validDate (digitsVal [y1, y2, y3, y4]) (digitsVal [m1, m2]) (digitsVal [d1, d2]) = true) :
    parse_date (String.mk [d1, d2, '.', m1, m2, '.', y1, y2, y3, y4]) =
      some (toEpochDay (digitsVal [y1, y2, y3, y4]) (digitsVal [m1, m2]) (digitsVal [d1, d2])) ∧
    parse_date (String.mk [d1, d2, '/', m1, m2, '/', y1, y2, y3, y4]) =
      some (toEpochDay (digitsVal [y1, y2, y3, y4]) (digitsVal [m1, m2]) (digitsVal [d1, d2])) ∧
    parse_date (String.mk [d1, d2, '-', m1, m2, '-', y1, y2, y3, y4]) =
      some (toEpochDay (digitsVal [y1, y2, y3, y4]) (digitsVal [m1, m2]) (digitsVal [d1, d2])) ∧
    parse_date (String.mk [y1, y2, y3, y4, '-', m1, m2, '-', d1, d2]) =
      some (toEpochDay (digitsVal [y1, y2, y3, y4]) (digitsVal [m1, m2]) (digitsVal [d1, d2])) := by
  refine ⟨?_, ?_, ?_, ?_⟩
  · show parse_date_core [d1, d2, '.', m1, m2, '.', y1, y2, y3, y4] = _
    rw [parse_date_core_dmy d1 d2 m1 m2 y1 y2 y3 y4 '.'
      hd1 hd2 hm1 hm2 hy1 hy2 hy3 hy4 (Or.inl rfl), if_pos hv]
  · show parse_date_core [d1, d2, '/', m1, m2, '/', y1, y2, y3, y4] = _
    rw [parse_date_core_dmy d1 d2 m1 m2 y1 y2 y3 y4 '/'
      hd1 hd2 hm1 hm2 hy1 hy2 hy3 hy4 (Or.inr (Or.inl rfl)), if_pos hv]
  · show parse_date_core [d1, d2, '-', m1, m2, '-', y1, y2, y3, y4] = _
    rw [parse_date_core_dmy d1 d2 m1 m2 y1 y2 y3 y4 '-'
      hd1 hd2 hm1 hm2 hy1 hy2 hy3 hy4 (Or.inr (Or.inr rfl)), if_pos hv]
  · show parse_date_core [y1, y2, y3, y4, '-', m1, m2, '-', d1, d2] = _
    rw [parse_date_core_ymd d1 d2 m1 m2 y1 y2 y3 y4
      hd1 hd2 hm1 hm2 hy1 hy2 hy3 hy4, if_pos hv]

/-- C5 witness: the four renderings of 15 April 2026 all parse to the
same datetime. -/
theorem C5_parse_date_separator_invariance_witness :
    parse_date (String.mk ['1', '5', '.', '0', '4', '.', '2', '0', '2', '6']) =
      some (toEpochDay (digitsVal ['2', '0', '2', '6']) (digitsVal ['0', '4']) (digitsVal ['1', '5'])) ∧
    parse_date (String.mk ['1', '5', '/', '0', '4', '/', '2', '0', '2', '6']) =
      some (toEpochDay (digitsVal ['2', '0', '2', '6']) (digitsVal ['0', '4']) (digitsVal ['1', '5'])) ∧
    parse_date (String.mk ['1', '5', '-', '0', '4', '-', '2', '0', '2', '6']) =
      some (toEpochDay (digitsVal ['2', '0', '2', '6']) (digitsVal ['0', '4']) (digitsVal ['1', '5'])) ∧
    parse_date (String.mk ['2', '0', '2', '6', '-', '0', '4', '-', '1', '5']) =
      some (toEpochDay (digitsVal ['2', '0', '2', '6']) (digitsVal ['0', '4']) (digitsVal ['1', '5'])) :=
  C5_parse_date_separator_invariance '1' '5' '0' '4' '2' '0' '2' '6'
    (by decide) (by decide) (by decide) (by decide)
    (by decide) (by decide) (by decide) (by decide) (by decide)

/-- C4: when the digits of any of the four numeric renderings do not
form a valid calendar date, `parse_date` returns `None` (the embedding
is total, so nothing is raised); a no-pattern string also gives `None`;
the same holds for the concrete `31.02.2025` and for an invalid
named-month date. -/
theorem C4_parse_date_invalid :
    (∀ (d1 d2 m1 m2 y1 y2 y3 y4 : Char),
      d1.isDigit = true → d2.isDigit = true → m1.isDigit = true → m2.isDigit = true →
      y1.isDigit = true → y2.isDigit = true → y3.isDigit = true → y4.isDigit = true →
      validDate (digitsVal [y1, y2, y3, y4]) (digitsVal [m1, m2]) (digitsVal [d1, d2]) = false →
      parse_date (String.mk [d1, d2, '.', m1, m2, '.', y1, y2, y3, y4]) = Option.none ∧
      parse_date (String.mk [d1, d2, '/', m1, m2, '/', y1, y2, y3, y4]) = Option.none ∧
      parse_date (String.mk [d1, d2, '-', m1, m2, '-', y1, y2, y3, y4]) = Option.none ∧
      parse_date (String.mk [y1, y2, y3, y4, '-', m1, m2, '-', d1, d2]) = Option.none) ∧
    parse_date "31.02.2025" = Option.none ∧
    parse_date "31 februarie 2025" = Option.none ∧
    parse_date "termen limita pentru inscriere" = Option.none := by
  refine ⟨?_, by decide, by decide, by decide⟩
  intro d1 d2 m1 m2 y1 y2 y3 y4 hd1 hd2 hm1 hm2 hy1 hy2 hy3 hy4 hv
  have hv' : ¬ (validDate (digitsVal [y1, y2, y3, y4]) (digitsVal [m1, m2])
      (digitsVal [d1, d2]) = true) := by simp [hv]
  refine ⟨?_, ?_, ?_, ?_⟩
  · show parse_date_core [d1, d2, '.', m1, m2, '.', y1, y2, y3, y4] = _
    rw [parse_date_core_dmy d1 d2 m1 m2 y1 y2 y3 y4 '.'
      hd1 hd2 hm1 hm2 hy1 hy2 hy3 hy4 (Or.inl rfl), if_neg hv']
  · show parse_date_core [d1, d2, '/', m1, m2, '/', y1, y2, y3, y4] = _
    rw [parse_date_core_dmy d1 d2 m1 m2 y1 y2 y3 y4 '/'
      hd1 hd2 hm1 hm2 hy1 hy2 hy3 hy4 (Or.inr (Or.inl rfl)), if_neg hv']
  · show parse_date_core [d1, d2, '-', m1, m2, '-', y1, y2, y3, y4] = _
    rw [parse_date_core_dmy d1 d2 m1 m2 y1 y2 y3 y4 '-'
      hd1 hd2 hm1 hm2 hy1 hy2 hy3 hy4 (Or.inr (Or.inr rfl)), if_neg hv']
  · show parse_date_core [y1, y2, y3, y4, '-', m1, m2, '-', d1, d2] = _
    rw [parse_date_core_ymd d1 d2 m1 m2 y1 y2 y3 y4
      hd1 hd2 hm1 hm2 hy1 hy2 hy3 hy4, if_neg hv']

/-- C4 witness: the four renderings of the invalid date 31 February
2025 all parse to `None`. -/
theorem C4_parse_date_invalid_witness :
    parse_date (String.mk ['3', '1', '.', '0', '2', '.', '2', '0', '2', '5']) = Option.none ∧
    parse_date (String.mk ['3', '1', '/', '0', '2', '/', '2', '0', '2', '5']) = Option.none ∧
    parse_date (String.mk ['3', '1', '-', '0', '2', '-', '2', '0', '2', '5']) = Option.none ∧
    parse_date (String.mk ['2', '0', '2', '5', '-', '0', '2', '-', '3', '1']) = Option.none :=
  C4_parse_date_invalid.1 '3' '1' '0' '2' '2' '0' '2' '5'
    (by decide) (by decide) (by decide) (by decide)
    (by decide) (by decide) (by decide) (by decide) (by decide)

end NGOFunding
